import Mathlib

/-
Verification development for the BBHNet timeslide-generation and
volume-time (VT) estimation core.

The Python sources embedded here:
  - projects/sandbox/datagen/datagen/utils/timeslide_waveforms.py
      (calc_shifts_required, merge_output, calc_segment_injection_times)
  - libs/analysis/bbhnet/analysis/vt.py
      (calculate_astrophysical_volume, VolumeTimeIntegral)
  - projects/sandbox/datagen/datagen/scripts/timeslides.py
      (per-slide background cropping in main)

Machine floats are embedded as exact rationals or reals; numpy arrays as
lists; h5py archives as ordered association lists; fallible paths as
Except / Option values.
-/

/-
SECTION 1: calc_shifts_required

Python source (timeslide_waveforms.py):

    livetime = np.sum([stop - start for start, stop in segments])
    n_segments = len(segments)
    shifts_required = 1
    while True:
        max_shift = shift * shifts_required
        total_livetime = (livetime - n_segments * max_shift) * shifts_required
        if total_livetime < Tb:
            shifts_required += 1
            continue
        break
    return shifts_required

The while loop is embedded with explicit fuel: a result of none means the
loop has not exited within the given number of iterations.
-/

/-- Total livetime of a segment list: np.sum of stop - start. -/
def livetime (segments : List (ℚ × ℚ)) : ℚ :=
  (segments.map (fun s => s.2 - s.1)).sum

/-- The quantity total_livetime computed by one iteration of the loop in
calc_shifts_required, for a candidate shift count n. -/
def totalLivetime (segments : List (ℚ × ℚ)) (shift : ℚ) (n : ℕ) : ℚ :=
  (livetime segments - (segments.length : ℚ) * (shift * (n : ℚ))) * (n : ℚ)

/-- The while loop of calc_shifts_required, with explicit fuel. -/
def shiftsLoop (segments : List (ℚ × ℚ)) (Tb shift : ℚ) : ℕ → ℕ → Option ℕ
  | 0, _ => none
  | fuel + 1, n =>
      if totalLivetime segments shift n < Tb then
        shiftsLoop segments Tb shift fuel (n + 1)
      else
        some n

/-- calc_shifts_required from timeslide_waveforms.py: the loop starts at
shifts_required = 1. -/
def calc_shifts_required (segments : List (ℚ × ℚ)) (Tb shift : ℚ)
    (fuel : ℕ) : Option ℕ :=
  shiftsLoop segments Tb shift fuel 1

/-- The summation appearing in the claim (and in the spec, section 4.1):
the livetime the spec attributes to N shifts, namely the sum over
i = 1..N of (T - i * delta). -/
def claimShiftSum (T delta : ℚ) (N : ℕ) : ℚ :=
  (Finset.range N).sum (fun i => T - ((i : ℚ) + 1) * delta)

/-- Claim C1 (counterexample): for the single segment (0, 100) with
shift increment 10 and target livetime 170, the code returns 3 shifts,
yet N = 2 already satisfies the claimed inequality
sum over i = 1..2 of (T - i * delta) = 90 + 80 = 170 >= 170, so the
returned N is not minimal for the claimed inequality and N - 1 does not
violate it. The loop actually uses the condition
(T - n_segments * N * delta) * N >= Tb, which is a different quantity. -/
theorem calc_shifts_required_claim_counterexample :
    calc_shifts_required [((0 : ℚ), 100)] 170 10 10 = some 3 ∧
      (170 : ℚ) ≤ claimShiftSum 100 10 2 ∧ (2 : ℕ) < 3 := by
  refine ⟨?_, ?_, by decide⟩
  · norm_num [calc_shifts_required, shiftsLoop, totalLivetime, livetime]
  · norm_num [claimShiftSum, Finset.sum_range_succ]

/-- Helper: if the loop returns some N starting from counter n, then N is
at least n, the loop condition holds at N, and it fails at every counter
value from n up to N. -/
theorem shiftsLoop_spec (segments : List (ℚ × ℚ)) (Tb shift : ℚ) :
    ∀ (fuel n N : ℕ), shiftsLoop segments Tb shift fuel n = some N →
      n ≤ N ∧ Tb ≤ totalLivetime segments shift N ∧
        ∀ m, n ≤ m → m < N → totalLivetime segments shift m < Tb := by
  intro fuel
  induction fuel with
  | zero => intro n N h; simp [shiftsLoop] at h
  | succ fuel ih =>
      intro n N h
      rw [shiftsLoop] at h
      by_cases hc : totalLivetime segments shift n < Tb
      · rw [if_pos hc] at h
        obtain ⟨h1, h2, h3⟩ := ih (n + 1) N h
        refine ⟨by omega, h2, ?_⟩
        intro m hm1 hm2
        rcases Nat.eq_or_lt_of_le hm1 with hm | hm
        · exact hm ▸ hc
        · exact h3 m hm hm2
      · rw [if_neg hc] at h
        obtain rfl : n = N := by simpa using h
        exact ⟨le_refl _, le_of_not_lt hc, fun m hm1 hm2 => absurd hm1 (by omega)⟩

/-- Claim C1 (amended): whenever the loop of calc_shifts_required
terminates with result N, that N is the minimal integer N >= 1
satisfying the loop condition N * (T - n_segments * N * delta) >= Tb
(which charges every one of the N shifts with the livetime loss of the
largest shift), and every smaller candidate m with 1 <= m < N violates
that condition. -/
theorem calc_shifts_required_minimal_loop_cond
    (segments : List (ℚ × ℚ)) (Tb shift : ℚ) (fuel N : ℕ)
    (h : calc_shifts_required segments Tb shift fuel = some N) :
    1 ≤ N ∧ Tb ≤ totalLivetime segments shift N ∧
      ∀ m, 1 ≤ m → m < N → totalLivetime segments shift m < Tb :=
  shiftsLoop_spec segments Tb shift fuel 1 N h

/-- Witness for calc_shifts_required_minimal_loop_cond at the concrete
input of the counterexample: the returned count 3 satisfies the loop
condition and both smaller candidates violate it. -/
theorem calc_shifts_required_minimal_loop_cond_witness :
    1 ≤ 3 ∧ (170 : ℚ) ≤ totalLivetime [((0 : ℚ), 100)] 10 3 ∧
      ∀ m, 1 ≤ m → m < 3 → totalLivetime [((0 : ℚ), 100)] 10 m < 170 :=
  calc_shifts_required_minimal_loop_cond [((0 : ℚ), 100)] 170 10 10 3
    (by norm_num [calc_shifts_required, shiftsLoop, totalLivetime, livetime])

/-- Helper: if no candidate count from n upward ever satisfies the loop
condition, the loop never exits, whatever the fuel. -/
theorem shiftsLoop_none (segments : List (ℚ × ℚ)) (Tb shift : ℚ)
    (h : ∀ m : ℕ, totalLivetime segments shift m < Tb) :
    ∀ (fuel n : ℕ), shiftsLoop segments Tb shift fuel n = none := by
  intro fuel
  induction fuel with
  | zero => intro n; simp [shiftsLoop]
  | succ fuel ih => intro n; rw [shiftsLoop, if_pos (h n)]; exact ih (n + 1)

/-- Claim C6 (code divergence): for the single segment (0, 10) with shift
increment 2 and target livetime 21 the target is infeasible (the
discriminant (delta / 2 - T) ^ 2 - 2 * delta * Tb = 81 - 84 is negative,
and indeed no candidate count satisfies the loop condition), yet
calc_shifts_required does not terminate and report an infeasible
condition: the loop never exits, for every fuel bound. -/
theorem calc_shifts_required_infeasible_no_return :
    (((2 : ℚ) / 2 - 10) ^ 2 - 2 * 2 * 21 < 0) ∧
      ∀ fuel : ℕ, calc_shifts_required [((0 : ℚ), 10)] 21 2 fuel = none := by
  constructor
  · norm_num
  · intro fuel
    apply shiftsLoop_none
    intro m
    have hm : (0 : ℚ) ≤ (m : ℚ) := Nat.cast_nonneg m
    simp only [totalLivetime, livetime]
    norm_num
    nlinarith [sq_nonneg ((m : ℚ) * 2 - 5), sq_nonneg ((m : ℚ) - 3)]

/-
SECTION 2: calc_segment_injection_times

Python source (timeslide_waveforms.py):

    buffer += waveform_duration // 2 + buffer
    spacing = waveform_duration + spacing
    injection_times = np.arange(start + buffer, stop - buffer, spacing)
    return injection_times

np.arange(a, b, step) is embedded over exact rationals: it has
max(0, ceil((b - a) / step)) elements, the i-th being a + i * step.
Python floor division by 2 on floats is embedded as the integer floor
of the rational divided by 2.
-/

/-- Number of elements of np.arange(a, b, step): ceil of (b - a) / step,
clamped to zero (and zero for step = 0, where numpy raises). -/
def arangeLen (a b step : ℚ) : ℕ :=
  if step = 0 then 0 else (⌈(b - a) / step⌉).toNat

/-- np.arange(a, b, step) over exact rationals. -/
def arange (a b step : ℚ) : List ℚ :=
  (List.range (arangeLen a b step)).map (fun i : ℕ => a + (i : ℚ) * step)

/-- calc_segment_injection_times from timeslide_waveforms.py. The first
line of the body doubles the buffer and adds the floor half of the
waveform duration: buffer += waveform_duration // 2 + buffer. -/
def calc_segment_injection_times
    (start stop spacing buffer waveform_duration : ℚ) : List ℚ :=
  let buffer2 := buffer + ((⌊waveform_duration / 2⌋ : ℤ) : ℚ) + buffer
  let spacing2 := waveform_duration + spacing
  arange (start + buffer2) (stop - buffer2) spacing2

/-- Every element of arange a b step is a + i * step for its index i. -/
theorem arange_getElem (a b step : ℚ) (i : ℕ)
    (h : i < (arange a b step).length) :
    (arange a b step)[i] = a + (i : ℚ) * step := by
  simp [arange]

/-- For a positive step, every element of arange a b step is below b. -/
theorem arange_lt_of_mem (a b step : ℚ) (hs : 0 < step) (t : ℚ)
    (ht : t ∈ arange a b step) : t < b := by
  simp only [arange, List.mem_map, List.mem_range] at ht
  obtain ⟨i, hi, rfl⟩ := ht
  rw [arangeLen, if_neg (ne_of_gt hs)] at hi
  have h1 : (i : ℤ) < ⌈(b - a) / step⌉ := by omega
  have h3 : ((i : ℤ) : ℚ) + 1 ≤ (⌈(b - a) / step⌉ : ℚ) := by
    exact_mod_cast Int.add_one_le_iff.mpr h1
  have hc := Int.ceil_lt_add_one ((b - a) / step)
  have h2 : ((i : ℚ)) < (b - a) / step := by push_cast at h3; linarith
  have h4 := (lt_div_iff₀ hs).mp h2
  linarith

/-- For a nonnegative step, every element of arange a b step is at
least a. -/
theorem arange_le_of_mem (a b step : ℚ) (hs : 0 ≤ step) (t : ℚ)
    (ht : t ∈ arange a b step) : a ≤ t := by
  simp only [arange, List.mem_map, List.mem_range] at ht
  obtain ⟨i, hi, rfl⟩ := ht
  have : (0 : ℚ) ≤ (i : ℚ) * step := mul_nonneg (Nat.cast_nonneg i) hs
  linarith

/-- Concrete evaluation shared by the theorems below: for
start 0, stop 100, spacing 2, buffer 3, waveform_duration 8, the
effective buffer is 2 * 3 + 8 // 2 = 10 and the grid runs from 10 to 80
in steps of 10. -/
theorem injection_times_eval_main :
    calc_segment_injection_times 0 100 2 3 8 =
      [10, 20, 30, 40, 50, 60, 70, 80] := by
  have hf : (⌊(8 : ℚ) / 2⌋ : ℤ) = 4 := by
    rw [show (8 : ℚ) / 2 = ((4 : ℤ) : ℚ) by norm_num, Int.floor_intCast]
  simp only [calc_segment_injection_times, hf]
  norm_num [arange, arangeLen, show Int.toNat 8 = 8 from rfl, List.range_succ]

/-- Claim C4 (counterexample): at start 0, stop 100, spacing 2, buffer 3,
waveform_duration 8, the first returned time is 10, not
start + (buffer + waveform_duration / 2) = 7 as the claim requires: the
code doubles the buffer (buffer += waveform_duration // 2 + buffer). -/
theorem calc_segment_injection_times_claim_counterexample :
    (calc_segment_injection_times 0 100 2 3 8).head? = some 10 ∧
      (10 : ℚ) ≠ 0 + (3 + 8 / 2) := by
  rw [injection_times_eval_main]
  norm_num

/-- Claim C4 (amended): calc_segment_injection_times returns the
arithmetic sequence starting at start + effective_buffer, bounded above
strictly by stop - effective_buffer, with step waveform_duration +
spacing, where effective_buffer = 2 * buffer + (waveform_duration
floor-divided by 2). -/
theorem calc_segment_injection_times_spec
    (start stop spacing buffer wd : ℚ) :
    (∀ i, ∀ h : i < (calc_segment_injection_times start stop spacing buffer wd).length,
        (calc_segment_injection_times start stop spacing buffer wd)[i] =
          start + (2 * buffer + ((⌊wd / 2⌋ : ℤ) : ℚ)) + (i : ℚ) * (wd + spacing)) ∧
      (0 < wd + spacing →
        ∀ t ∈ calc_segment_injection_times start stop spacing buffer wd,
          start + (2 * buffer + ((⌊wd / 2⌋ : ℤ) : ℚ)) ≤ t ∧
            t < stop - (2 * buffer + ((⌊wd / 2⌋ : ℤ) : ℚ))) := by
  have hdef : calc_segment_injection_times start stop spacing buffer wd
      = arange (start + (2 * buffer + ((⌊wd / 2⌋ : ℤ) : ℚ)))
          (stop - (2 * buffer + ((⌊wd / 2⌋ : ℤ) : ℚ))) (wd + spacing) := by
    show arange (start + (buffer + ((⌊wd / 2⌋ : ℤ) : ℚ) + buffer))
        (stop - (buffer + ((⌊wd / 2⌋ : ℤ) : ℚ) + buffer)) (wd + spacing) = _
    congr 1 <;> ring
  constructor
  · intro i h
    simp only [calc_segment_injection_times] at h ⊢
    rw [arange_getElem _ _ _ i h]
    ring
  · intro hstep t ht
    rw [hdef] at ht
    exact ⟨arange_le_of_mem _ _ _ (le_of_lt hstep) t ht,
      arange_lt_of_mem _ _ _ hstep t ht⟩

/-- Witness for calc_segment_injection_times_spec: the element 10 of the
grid at start 0, stop 100, spacing 2, buffer 3, duration 8 lies between
the amended bounds. -/
theorem calc_segment_injection_times_spec_witness :
    (0 : ℚ) + (2 * 3 + ((⌊(8 : ℚ) / 2⌋ : ℤ) : ℚ)) ≤ 10 ∧
      (10 : ℚ) < 100 - (2 * 3 + ((⌊(8 : ℚ) / 2⌋ : ℤ) : ℚ)) :=
  (calc_segment_injection_times_spec 0 100 2 3 8).2 (by norm_num) 10
    (by rw [injection_times_eval_main]; norm_num)

/-- Claim C5 (counterexample): at start 0, stop 13, spacing 0, buffer 0,
waveform_duration 7, the returned grid is the single time 3, whose
window extends from 3 - 7 / 2 = -1 / 2, strictly before the segment
start 0: with an odd duration and zero buffer the floor in
waveform_duration // 2 lets the first window leave the segment. -/
theorem injection_times_window_counterexample :
    calc_segment_injection_times 0 13 0 0 7 = [3] ∧ (3 : ℚ) - 7 / 2 < 0 := by
  constructor
  · have hf : (⌊(7 : ℚ) / 2⌋ : ℤ) = 3 := by
      rw [Int.floor_eq_iff]
      norm_num
    simp only [calc_segment_injection_times, hf]
    norm_num [arange, arangeLen, show Int.toNat 1 = 1 from rfl, List.range_succ]
  · norm_num

/-- Claim C5 (amended): for a positive step waveform_duration + spacing,
the returned times are strictly increasing with consecutive differences
exactly waveform_duration + spacing; and provided the effective buffer
2 * buffer + (waveform_duration floor-divided by 2) is at least
waveform_duration / 2 (which fails for odd durations with a too small
buffer, see the counterexample), every window
of half-width waveform_duration / 2 around a returned time stays inside
the segment bounds. -/
theorem calc_segment_injection_times_invariants
    (start stop spacing buffer wd : ℚ) (hstep : 0 < wd + spacing) :
    (∀ i, ∀ h : i + 1 < (calc_segment_injection_times start stop spacing buffer wd).length,
        (calc_segment_injection_times start stop spacing buffer wd)[i] <
            (calc_segment_injection_times start stop spacing buffer wd)[i + 1] ∧
          (calc_segment_injection_times start stop spacing buffer wd)[i + 1] -
              (calc_segment_injection_times start stop spacing buffer wd)[i] =
            wd + spacing) ∧
      (wd / 2 ≤ 2 * buffer + ((⌊wd / 2⌋ : ℤ) : ℚ) →
        ∀ t ∈ calc_segment_injection_times start stop spacing buffer wd,
          start ≤ t - wd / 2 ∧ t + wd / 2 ≤ stop) := by
  have hspec := calc_segment_injection_times_spec start stop spacing buffer wd
  constructor
  · intro i h
    have hi : i < (calc_segment_injection_times start stop spacing buffer wd).length := by
      omega
    have e1 := hspec.1 i hi
    have e2 := hspec.1 (i + 1) h
    rw [e1, e2]
    push_cast
    constructor
    · nlinarith
    · ring
  · intro hbuf t ht
    obtain ⟨hl, hr⟩ := hspec.2 hstep t ht
    constructor <;> linarith

/-- Witness for calc_segment_injection_times_invariants: at start 0,
stop 100, spacing 2, buffer 3, duration 8, the window around the
returned time 10 stays inside the segment. -/
theorem calc_segment_injection_times_invariants_witness :
    (0 : ℚ) ≤ 10 - 8 / 2 ∧ (10 : ℚ) + 8 / 2 ≤ 100 :=
  (calc_segment_injection_times_invariants 0 100 2 3 8 (by norm_num)).2
    (by
      rw [show (8 : ℚ) / 2 = ((4 : ℤ) : ℚ) by norm_num, Int.floor_intCast]
      norm_num)
    10 (by rw [injection_times_eval_main]; norm_num)

/-
SECTION 3: VolumeTimeIntegral.weights and calculate_vt

Python source (vt.py):

    YEARS_PER_SECOND = 1 / (60 * 60 * 24 * 365)

    def weights(self, target=None):
        if target is None:
            target = self.source
        weights = []
        for sample in self.recovered_parameters:
            weight = target.prob(sample) / self.source.prob(sample)
            weights.append(weight)
        return np.array(weights)

    def calculate_vt(self, target=None):
        weights = self.weights(target)
        mu = np.sum(weights) / self.n_injections
        v0 = self.livetime * YEARS_PER_SECOND * self.volume
        vt = mu * v0
        variance = np.sum(weights**2) / self.n_injections**2
        variance -= mu**2 / self.n_injections
        variance *= v0**2
        std = np.sqrt(variance)
        n_eff = vt**2 / variance
        return vt.value, std.value, n_eff.value

A bilby prior dictionary is abstracted as its probability density, a
function from samples to the reals; the recovered-parameter table as the
list of its rows; the astrophysical volume (set by the post-init hook via
astropy and scipy numerics) as a real-valued field.
-/

/-- YEARS_PER_SECOND from vt.py. -/
noncomputable def YEARS_PER_SECOND : ℝ := 1 / (60 * 60 * 24 * 365)

/-- The VolumeTimeIntegral dataclass from vt.py, over an abstract sample
type. The volume field holds the value the post-init hook assigns from
calculate_astrophysical_volume; its declination handling is embedded
separately in section 6. -/
structure VolumeTimeIntegral (α : Type) where
  source : α → ℝ
  recovered_parameters : List α
  n_injections : ℕ
  livetime : ℝ
  volume : ℝ

/-- VolumeTimeIntegral.weights: one density ratio per recovered sample,
with the source density replacing a missing target. -/
noncomputable def weights {α : Type} (vti : VolumeTimeIntegral α)
    (target : Option (α → ℝ)) : List ℝ :=
  let t := target.getD vti.source
  vti.recovered_parameters.map (fun sample => t sample / vti.source sample)

/-- VolumeTimeIntegral.calculate_vt: returns the triple
(vt, std, n_eff), following the source line by line. -/
noncomputable def calculate_vt {α : Type} (vti : VolumeTimeIntegral α)
    (target : Option (α → ℝ)) : ℝ × ℝ × ℝ :=
  let w := weights vti target
  let mu := w.sum / (vti.n_injections : ℝ)
  let v0 := vti.livetime * YEARS_PER_SECOND * vti.volume
  let vt := mu * v0
  let variance := (w.map (fun x => x ^ 2)).sum / (vti.n_injections : ℝ) ^ 2
      - mu ^ 2 / (vti.n_injections : ℝ)
  let variance2 := variance * v0 ^ 2
  (vt, Real.sqrt variance2, vt ^ 2 / variance2)

/-- Claim C2: for every weight vector, positive injection count n,
livetime L and volume V, calculate_vt returns exactly
(mu * V0, sqrt(variance), (mu * V0) ^ 2 / variance) with
mu = (sum of weights) / n, V0 = L * (1 / 31536000) * V and
variance = ((sum of squared weights) / n ^ 2 - mu ^ 2 / n) * V0 ^ 2. -/
theorem calculate_vt_formula {α : Type} (vti : VolumeTimeIntegral α)
    (target : Option (α → ℝ)) (_h : 0 < vti.n_injections) :
    calculate_vt vti target =
      ((weights vti target).sum / (vti.n_injections : ℝ) *
          (vti.livetime * (1 / 31536000) * vti.volume),
        Real.sqrt
          ((((weights vti target).map (fun x => x ^ 2)).sum /
                (vti.n_injections : ℝ) ^ 2 -
              ((weights vti target).sum / (vti.n_injections : ℝ)) ^ 2 /
                (vti.n_injections : ℝ)) *
            (vti.livetime * (1 / 31536000) * vti.volume) ^ 2),
        ((weights vti target).sum / (vti.n_injections : ℝ) *
              (vti.livetime * (1 / 31536000) * vti.volume)) ^ 2 /
          ((((weights vti target).map (fun x => x ^ 2)).sum /
                (vti.n_injections : ℝ) ^ 2 -
              ((weights vti target).sum / (vti.n_injections : ℝ)) ^ 2 /
                (vti.n_injections : ℝ)) *
            (vti.livetime * (1 / 31536000) * vti.volume) ^ 2)) := by
  have hy : YEARS_PER_SECOND = 1 / 31536000 := by norm_num [YEARS_PER_SECOND]
  simp only [calculate_vt, hy]

/-- Witness for calculate_vt_formula: one recovered sample with unit
weight among four injections, livetime 2 and volume 5 gives the vt
component (1 / 4) * (2 * (1 / 31536000) * 5). -/
theorem calculate_vt_formula_witness :
    (calculate_vt (⟨fun _ => 1, [0], 4, 2, 5⟩ : VolumeTimeIntegral ℚ) none).1 =
      1 / 4 * (2 * (1 / 31536000) * 5) := by
  rw [calculate_vt_formula (⟨fun _ => 1, [0], 4, 2, 5⟩ : VolumeTimeIntegral ℚ)
      none (by norm_num)]
  norm_num [weights]

/-- Claim C3: when every recovered sample has nonzero source density and
the target is absent (or literally the source density), every weight is
exactly 1 and mu is exactly n_recovered / n_injections, independently of
the density function. -/
theorem weights_identity_reweighting {α : Type} (vti : VolumeTimeIntegral α)
    (target : Option (α → ℝ))
    (htarget : target = none ∨ target = some vti.source)
    (h : ∀ sample ∈ vti.recovered_parameters, vti.source sample ≠ 0) :
    weights vti target = List.replicate vti.recovered_parameters.length 1 ∧
      (weights vti target).sum / (vti.n_injections : ℝ) =
        (vti.recovered_parameters.length : ℝ) / (vti.n_injections : ℝ) := by
  have hw : weights vti target =
      vti.recovered_parameters.map (fun s => vti.source s / vti.source s) := by
    rcases htarget with rfl | rfl
    · rfl
    · rfl
  have hrep : weights vti target =
      List.replicate vti.recovered_parameters.length 1 := by
    rw [hw, List.eq_replicate_iff]
    refine ⟨by simp, ?_⟩
    intro b hb
    simp only [List.mem_map] at hb
    obtain ⟨s, hs, rfl⟩ := hb
    exact div_self (h s hs)
  refine ⟨hrep, ?_⟩
  rw [hrep, List.sum_replicate, nsmul_eq_mul, mul_one]

/-- Witness for weights_identity_reweighting: two recovered samples with
constant source density 2 and no target give weights (1, 1) and
mu = 2 / 5. -/
theorem weights_identity_reweighting_witness :
    weights (⟨fun _ => 2, [0, 1], 5, 7, 11⟩ : VolumeTimeIntegral ℚ) none =
        List.replicate ([(0 : ℚ), 1]).length 1 ∧
      (weights (⟨fun _ => 2, [0, 1], 5, 7, 11⟩ : VolumeTimeIntegral ℚ) none).sum /
          ((5 : ℕ) : ℝ) =
        (([(0 : ℚ), 1]).length : ℝ) / ((5 : ℕ) : ℝ) :=
  weights_identity_reweighting
    (⟨fun _ => 2, [0, 1], 5, 7, 11⟩ : VolumeTimeIntegral ℚ) none (Or.inl rfl)
    (by intro s hs; norm_num)

/-- Claim C7 (code divergence): calculate_vt contains no check on
n_injections and no raising operation: with numpy semantics the division
of a float array sum by the integer zero emits a RuntimeWarning and
produces NaN, it does not raise. Accordingly the embedding is total and
the call with zero injections returns a value triple (division by zero
is totalized as zero here, standing where numpy produces NaN); there is
no error path in the code. -/
theorem calculate_vt_zero_injections_runs :
    calculate_vt (⟨fun _ => 1, [], 0, 3, 5⟩ : VolumeTimeIntegral ℚ) none =
      (0, 0, 0) := by
  simp [calculate_vt, weights]

/-
SECTION 4: merge_output

Python source (timeslide_waveforms.py):

    files = datadir.glob("*.hdf5")
    datasets = defaultdict(list)
    n_rejected = 0
    for f in files:
        with h5py.File(f, "r") as h5f:
            for key, value in h5f.items():
                datasets[key].extend(value)
            n_rejected += h5f.attrs["n_rejected"]
        f.unlink()
    with h5py.File(datadir / "timeslide_waveforms.hdf5", "w") as f:
        for key, value in datasets.items():
            f.create_dataset(key, data=value)
        f.attrs.update(n_rejected=n_rejected)

An hdf5 archive is embedded as an ordered association list of datasets
(h5py exposes each key at most once) plus the n_rejected attribute; the
defaultdict accumulator as an ordered association list in which
extending a missing key appends it. The file iteration order is the
order of the input list.
-/

/-- A per-unit hdf5 archive: named datasets plus the n_rejected
attribute. -/
structure Archive where
  datasets : List (String × List ℚ)
  n_rejected : ℕ

/-- Reading a key of an archive or of the defaultdict accumulator: the
value at its first occurrence, the empty list when absent. -/
def lookupData : List (String × List ℚ) → String → List ℚ
  | [], _ => []
  | kv :: rest, key => if kv.1 = key then kv.2 else lookupData rest key

/-- datasets[key].extend(value) on the defaultdict accumulator: extends
the first entry holding the key, appends a fresh entry when absent. -/
def extendKey : List (String × List ℚ) → String → List ℚ → List (String × List ℚ)
  | [], key, v => [(key, v)]
  | kv :: rest, key, v =>
      if kv.1 = key then (kv.1, kv.2 ++ v) :: rest
      else kv :: extendKey rest key v

/-- The inner loop of merge_output over one file: extend the accumulator
with every dataset of the file, in file order. -/
def mergeInto (acc : List (String × List ℚ))
    (file : List (String × List ℚ)) : List (String × List ℚ) :=
  file.foldl (fun a kv => extendKey a kv.1 kv.2) acc

/-- merge_output from timeslide_waveforms.py, over the list of per-unit
archives: one pass accumulating datasets and the n_rejected sum. -/
def merge_output (files : List Archive) : Archive :=
  files.foldl
    (fun acc f =>
      { datasets := mergeInto acc.datasets f.datasets,
        n_rejected := acc.n_rejected + f.n_rejected })
    { datasets := [], n_rejected := 0 }

/-- Helper: reading a key that extendKey did not touch is unchanged;
reading the extended key appends the new value. -/
theorem lookupData_extendKey (acc : List (String × List ℚ)) (k key : String)
    (v : List ℚ) :
    lookupData (extendKey acc k v) key =
      lookupData acc key ++ (if key = k then v else []) := by
  induction acc with
  | nil =>
      simp only [extendKey, lookupData, List.nil_append]
      by_cases h : k = key
      · simp [h]
      · have h2 : ¬key = k := fun hh => h hh.symm
        simp [h, h2]
  | cons kv rest ih =>
      simp only [extendKey]
      by_cases h1 : kv.1 = k
      · rw [if_pos h1]
        by_cases h2 : kv.1 = key
        · have h3 : key = k := h2.symm.trans h1
          simp only [lookupData, if_pos h2, if_pos h3]
        · have h3 : ¬key = k := fun hh => h2 (h1.trans hh.symm)
          simp only [lookupData, if_neg h2, if_neg h3, List.append_nil]
      · rw [if_neg h1]
        by_cases h2 : kv.1 = key
        · have h3 : ¬key = k := fun hh => h1 (h2.trans hh)
          simp only [lookupData, if_pos h2, if_neg h3, List.append_nil]
        · simp only [lookupData, if_neg h2, ih]

/-- Helper: a key absent from an association list reads as empty. -/
theorem lookupData_eq_nil (l : List (String × List ℚ)) (key : String)
    (h : key ∉ l.map Prod.fst) : lookupData l key = [] := by
  induction l with
  | nil => rfl
  | cons kv rest ih =>
      simp only [List.map_cons, List.mem_cons] at h
      push_neg at h
      have : kv.1 ≠ key := fun hh => h.1 (Eq.symm hh)
      simp [lookupData, this, ih h.2]

/-- Helper: merging one file whose keys are unique appends, key by key,
the file contents after the accumulator contents. -/
theorem lookupData_mergeInto (file : List (String × List ℚ)) (key : String)
    (hnd : (file.map Prod.fst).Nodup) :
    ∀ acc, lookupData (mergeInto acc file) key =
      lookupData acc key ++ lookupData file key := by
  induction file with
  | nil => intro acc; simp [mergeInto, lookupData]
  | cons kv rest ih =>
      intro acc
      simp only [List.map_cons, List.nodup_cons] at hnd
      have hstep : mergeInto acc (kv :: rest) =
          mergeInto (extendKey acc kv.1 kv.2) rest := rfl
      rw [hstep, ih hnd.2, lookupData_extendKey]
      by_cases h : key = kv.1
      · subst h
        have hrest : lookupData rest kv.1 = [] :=
          lookupData_eq_nil rest kv.1 hnd.1
        simp [lookupData, hrest]
      · have h2 : ¬kv.1 = key := fun hh => h hh.symm
        simp [lookupData, h, h2]

/-- Helper: the accumulated n_rejected of the fold is the initial value
plus the sum over the remaining files. -/
theorem merge_output_fold_n_rejected (files : List Archive) :
    ∀ init : Archive,
      (files.foldl
          (fun acc f =>
            { datasets := mergeInto acc.datasets f.datasets,
              n_rejected := acc.n_rejected + f.n_rejected })
          init).n_rejected =
        init.n_rejected + (files.map Archive.n_rejected).sum := by
  induction files with
  | nil => intro init; simp
  | cons f rest ih =>
      intro init
      simp only [List.foldl_cons, List.map_cons, List.sum_cons]
      rw [ih]
      simp
      omega

/-- Helper: the accumulated datasets of the fold read, at every key, as
the initial contents followed by each file contribution in file order. -/
theorem merge_output_fold_datasets (files : List Archive) (key : String)
    (h : ∀ f ∈ files, (f.datasets.map Prod.fst).Nodup) :
    ∀ init : Archive,
      lookupData
          (files.foldl
              (fun acc f =>
                { datasets := mergeInto acc.datasets f.datasets,
                  n_rejected := acc.n_rejected + f.n_rejected })
              init).datasets
          key =
        lookupData init.datasets key ++
          (files.map (fun f => lookupData f.datasets key)).flatten := by
  induction files with
  | nil => intro init; simp
  | cons f rest ih =>
      intro init
      simp only [List.foldl_cons, List.map_cons, List.flatten_cons]
      rw [ih (fun g hg => h g (List.mem_cons_of_mem f hg))]
      rw [lookupData_mergeInto f.datasets key (h f (List.mem_cons_self f rest))]
      rw [List.append_assoc]

/-- Claim C8: merging per-unit archives with unique dataset keys yields
one archive whose n_rejected is the sum of the per-unit n_rejected
attributes and whose dataset at every key is the order-preserving
concatenation of the per-unit datasets at that key, so its length is
the sum of the per-unit lengths. -/
theorem merge_output_spec (files : List Archive) (key : String)
    (h : ∀ f ∈ files, (f.datasets.map Prod.fst).Nodup) :
    (merge_output files).n_rejected = (files.map Archive.n_rejected).sum ∧
      lookupData (merge_output files).datasets key =
        (files.map (fun f => lookupData f.datasets key)).flatten ∧
      (lookupData (merge_output files).datasets key).length =
        (files.map (fun f => (lookupData f.datasets key).length)).sum := by
  have h1 := merge_output_fold_n_rejected files ⟨[], 0⟩
  have h2 := merge_output_fold_datasets files key h ⟨[], 0⟩
  refine ⟨by simpa [merge_output] using h1, by simpa [merge_output, lookupData] using h2, ?_⟩
  have h3 : lookupData (merge_output files).datasets key =
      (files.map (fun f => lookupData f.datasets key)).flatten := by
    simpa [merge_output, lookupData] using h2
  rw [h3, List.length_flatten, List.map_map]
  rfl

/-- Witness for merge_output_spec: two archives, each with n_rejected 4,
merge to n_rejected 8 and to the dataset (1, 2, 5) at the key a,
preserving each unit internal order. -/
theorem merge_output_spec_witness :
    (merge_output
          [⟨[("a", [1, 2]), ("b", [3])], 4⟩, ⟨[("a", [5])], 4⟩]).n_rejected =
        ([⟨[("a", [1, 2]), ("b", [3])], 4⟩,
            (⟨[("a", [5])], 4⟩ : Archive)].map Archive.n_rejected).sum ∧
      lookupData
          (merge_output
              [⟨[("a", [1, 2]), ("b", [3])], 4⟩, ⟨[("a", [5])], 4⟩]).datasets
          "a" =
        ([⟨[("a", [1, 2]), ("b", [3])], 4⟩,
            (⟨[("a", [5])], 4⟩ : Archive)].map
            (fun f => lookupData f.datasets "a")).flatten ∧
      (lookupData
          (merge_output
              [⟨[("a", [1, 2]), ("b", [3])], 4⟩, ⟨[("a", [5])], 4⟩]).datasets
          "a").length =
        ([⟨[("a", [1, 2]), ("b", [3])], 4⟩,
            (⟨[("a", [5])], 4⟩ : Archive)].map
            (fun f => (lookupData f.datasets "a").length)).sum :=
  merge_output_spec
    [⟨[("a", [1, 2]), ("b", [3])], 4⟩, ⟨[("a", [5])], 4⟩] "a"
    (by
      intro f hf
      simp only [List.mem_cons, List.not_mem_nil, or_false] at hf
      rcases hf with rfl | rfl
      · simp
      · simp)

/-
SECTION 5: per-slide background cropping in timeslides.py main

Python source (timeslides.py):

    max_shift = max(shifts) * n_slides
    ...
    dur = segment_stop - segment_start - max_shift
    ...
    for (waveforms, parameters), shift in it:
        ...
        for i, (_, shift_val) in enumerate(shift):
            channel = channels[i]
            start = segment_start + shift_val
            bckgrd = background[channel].crop(start, start + dur)
            background_data[channel] = bckgrd.value

The downloaded background of one detector over the segment is embedded
at the sample level as a list of reals; times are sample counts, so a
crop from start + shift_val over duration dur is the sublist of
dur samples starting at sample index shift_val.

The helper make_shifts lives in datagen/utils/timeslides.py, which is
not among the files at hand; its shift values are modelled from the
spec. Modelled from the spec: the shifts argument lists one base offset
per interferometer, and the slide number i (from 1 to n_slides) assigns
to detector j the offset shifts[j] * i, so the largest offset used is
max(shifts) * n_slides, exactly the max_shift main subtracts from the
segment duration.
-/

/-- TimeSeries.crop at the sample level: n samples starting at index
i of the detector data. -/
def crop (data : List ℝ) (i n : ℕ) : List ℝ :=
  (data.drop i).take n

/-- Modelled from the spec: the offset make_shifts gives detector j on
slide number i, namely shifts[j] * i (in samples). -/
def shiftVal (shifts : List ℕ) (j i : ℕ) : ℕ :=
  shifts.getD j 0 * i

/-- The max_shift of main: max(shifts) * n_slides (in samples). -/
def maxShift (shifts : List ℕ) (n_slides : ℕ) : ℕ :=
  shifts.foldr Nat.max 0 * n_slides

/-- The background array main builds for detector j on slide number i:
the data cropped from sample shiftVal over
dur = data.length - maxShift samples. -/
def slideBackground (data : List ℝ) (shifts : List ℕ) (n_slides j i : ℕ) :
    List ℝ :=
  crop data (shiftVal shifts j i) (data.length - maxShift shifts n_slides)

/-- Helper: every entry of a list of naturals is at most the foldr of
Nat.max over the list. -/
theorem le_foldr_max (l : List ℕ) (x : ℕ) (h : x ∈ l) :
    x ≤ l.foldr Nat.max 0 := by
  induction l with
  | nil => cases h
  | cons y rest ih =>
      rcases List.mem_cons.mp h with rfl | h2
      · exact Nat.le_max_left x (rest.foldr Nat.max 0)
      · exact le_trans (ih h2) (Nat.le_max_right y (rest.foldr Nat.max 0))

/-- Claim C9: for every detector index j and every slide number i from 1
to n_slides of a segment long enough for the maximal shift, the cropped
background array of detector j on slide i is the read of the data
starting at its shift value, and has length exactly
dur = segment length - maxShift, the same for every detector and every
slide of the segment. -/
theorem slideBackground_length_uniform (data : List ℝ) (shifts : List ℕ)
    (n_slides j i : ℕ) (hj : j < shifts.length) (_hi1 : 1 ≤ i)
    (hi2 : i ≤ n_slides) (hseg : maxShift shifts n_slides ≤ data.length) :
    slideBackground data shifts n_slides j i =
        (data.drop (shiftVal shifts j i)).take
          (data.length - maxShift shifts n_slides) ∧
      (slideBackground data shifts n_slides j i).length =
        data.length - maxShift shifts n_slides := by
  refine ⟨rfl, ?_⟩
  have hmem : shifts.getD j 0 ∈ shifts := by
    rw [List.getD_eq_getElem?_getD, List.getElem?_eq_getElem hj]
    exact List.getElem_mem hj
  have hle : shifts.getD j 0 ≤ shifts.foldr Nat.max 0 :=
    le_foldr_max shifts (shifts.getD j 0) hmem
  have hsv : shiftVal shifts j i ≤ maxShift shifts n_slides :=
    Nat.mul_le_mul hle hi2
  simp only [slideBackground, crop, List.length_take, List.length_drop]
  omega

/-- Witness for slideBackground_length_uniform: ten samples, base
offsets (1, 2), three slides; detector 1 on slide 2 reads four samples
starting at sample 4, and dur = 10 - 6 = 4. -/
theorem slideBackground_length_uniform_witness :
    slideBackground (List.replicate 10 (0 : ℝ)) [1, 2] 3 1 2 =
        ((List.replicate 10 (0 : ℝ)).drop (shiftVal [1, 2] 1 2)).take
          ((List.replicate 10 (0 : ℝ)).length - maxShift [1, 2] 3) ∧
      (slideBackground (List.replicate 10 (0 : ℝ)) [1, 2] 3 1 2).length =
        (List.replicate 10 (0 : ℝ)).length - maxShift [1, 2] 3 :=
  slideBackground_length_uniform (List.replicate 10 (0 : ℝ)) [1, 2] 3 1 2
    (by decide) (by decide) (by decide)
    (by simp [maxShift])

/-
SECTION 6: calculate_astrophysical_volume and the post-init hook

Python source (vt.py):

    def calculate_astrophysical_volume(dl_min, dl_max,
            dec_min=-PI_OVER_TWO, dec_max=PI_OVER_TWO,
            cosmology=cosmo.Planck15):
        zmin, zmax = cosmo.z_at_value(cosmology.luminosity_distance,
                                      [dl_min, dl_max] * u.Mpc)
        dec_min, dec_max = dec_min * u.rad, dec_max * u.rad
        theta_max, theta_min = (np.pi / 2 - dec_min.value,
                                np.pi / 2 - dec_max.value)
        omega = -2 * math.pi * (np.cos(theta_max) - np.cos(theta_min))
        integrand = lambda z: 1 / (1 + z) * \\
            (cosmology.differential_comoving_volume(z)).value
        volume, _ = quad(integrand, zmin, zmax) * u.Mpc**3 * omega
        return volume

    def __post_init__(self):
        ...
        if "dec" in self.source:
            dec_prior = self.source["dec"]
            dec_min, dec_max = dec_prior.minimum, dec_prior.maximum
        else:
            dec_min = dec_max = None
        self.volume = calculate_astrophysical_volume(
            dl_min=dl_min, dl_max=dl_max,
            dec_min=dec_min, dec_max=dec_max, cosmology=self.cosmology)

The astropy and scipy numerics (z_at_value and the quadrature of the
redshift integrand) are external capabilities, abstracted as the given
radial integral. Python passes of None into the declination arguments
are embedded as Option values; multiplying None by the astropy unit
u.rad raises a TypeError, embedded as the Except error branch: the
default declination bounds are overridden by the explicitly passed
arguments, so the documented full-sky fallback is unreachable from the
post-init hook.
-/

/-- A bilby prior dictionary as the post-init hook uses it: its key set
and the (minimum, maximum) bounds of each named one-dimensional prior. -/
structure PriorDict where
  keys : List String
  bounds : String → ℝ × ℝ

/-- calculate_astrophysical_volume from vt.py, with declination bounds
as optionally missing values and the external redshift quadrature
abstracted as radialIntegral. The defaults of the source for dec_min and
dec_max are -pi / 2 and pi / 2; the error branch embeds the TypeError
that dec_min * u.rad raises on None. -/
noncomputable def calculate_astrophysical_volume (radialIntegral : ℝ)
    (dec_min dec_max : Option ℝ) : Except String ℝ :=
  match dec_min, dec_max with
  | some dmin, some dmax =>
      let theta_max := Real.pi / 2 - dmin
      let theta_min := Real.pi / 2 - dmax
      let omega := -2 * Real.pi * (Real.cos theta_max - Real.cos theta_min)
      Except.ok (radialIntegral * omega)
  | _, _ =>
      Except.error "TypeError: unsupported operand type for *: NoneType and Unit"

/-- The declination part of the post-init hook of VolumeTimeIntegral:
bounds from the dec prior when the key dec is present, otherwise None,
passed to calculate_astrophysical_volume. -/
noncomputable def post_init_volume (source : PriorDict) (radialIntegral : ℝ) :
    Except String ℝ :=
  let decBounds : Option ℝ × Option ℝ :=
    if "dec" ∈ source.keys then
      (some (source.bounds "dec").1, some (source.bounds "dec").2)
    else (none, none)
  calculate_astrophysical_volume radialIntegral decBounds.1 decBounds.2

/-- Claim C10: for every source prior without a dec key, the post-init
hook passes None declination bounds into
calculate_astrophysical_volume, which raises on multiplying them by the
angle unit, so constructing the VolumeTimeIntegral fails and the
documented full-sky fallback of the default bounds is never taken. -/
theorem post_init_missing_dec_raises (source : PriorDict)
    (radialIntegral : ℝ) (h : "dec" ∉ source.keys) :
    post_init_volume source radialIntegral =
      Except.error
        "TypeError: unsupported operand type for *: NoneType and Unit" := by
  simp only [post_init_volume, if_neg h]
  rfl

/-- Witness for post_init_missing_dec_raises: a prior holding only a
luminosity_distance entry makes the post-init volume computation fail. -/
theorem post_init_missing_dec_raises_witness :
    post_init_volume ⟨["luminosity_distance"], fun _ => (10, 100)⟩ 3 =
      Except.error
        "TypeError: unsupported operand type for *: NoneType and Unit" :=
  post_init_missing_dec_raises ⟨["luminosity_distance"], fun _ => (10, 100)⟩ 3
    (by decide)
